import Mathlib

/-!
Verification development for the resume-scoring engine in `src/main/utils.py`
and `src/main/score_utils.py`.

The Python code is shallowly embedded: strings are `String`/`List Char`,
Python `float` arithmetic is modelled exactly over `ℚ` (every quantity the
engine manipulates is a small rational, far from any binary-float tie or
rounding anomaly; where Python's banker-rounding `round` appears we model it
exactly with `roundHalfEven`), Python `int` is `ℤ`, dicts with fixed key sets
become structures, and ordered `dict`s used as ordered maps become association
lists in insertion order.  Regular-expression searches in the source are
embedded as explicit character-list scanners that implement exactly the
matching semantics of the concrete patterns involved (all of which are simple
enough that greedy matching with the leftmost-scan rule is directly
expressible).  Character classes (`\s`, `\w`, case folding) are modelled over
ASCII, which covers every string the source compares against.
-/

/-- Python `\s` over ASCII: space, tab, newline, carriage return, vertical
tab, form feed.  Used by `re.sub(r"\s+", ...)`, `str.strip()` and the regex
character class `[^\s\"]`. -/
def isWs (c : Char) : Bool :=
  c.toNat = 32 || c.toNat = 9 || c.toNat = 10 || c.toNat = 13 ||
  c.toNat = 11 || c.toNat = 12

/-- Python `\w` over ASCII: letters, digits, underscore.  Used by the `\b`
word-boundary assertions in the presence regexes. -/
def isWordChar (c : Char) : Bool :=
  (65 ≤ c.toNat && c.toNat ≤ 90) || (97 ≤ c.toNat && c.toNat ≤ 122) ||
  (48 ≤ c.toNat && c.toNat ≤ 57) || c.toNat = 95

/-- ASCII lower-casing of one character, as performed by Python `str.lower()`
on the ASCII range (non-ASCII characters are untouched by every comparison in
the source, so identity is a faithful model there). -/
def lowerChar (c : Char) : Char :=
  if 65 ≤ c.toNat ∧ c.toNat ≤ 90 then Char.ofNat (c.toNat + 32) else c

/-- Lower-case a character list (model of `str.lower()`). -/
def lowerList (l : List Char) : List Char := l.map lowerChar

/-- Lower-case a string (model of `str.lower()`). -/
def lowerStr (s : String) : String := ⟨lowerList s.data⟩

/-- Python's contiguous-substring test `needle in hay` on strings. -/
def containsSub (hay needle : List Char) : Bool :=
  hay.tails.any (fun t => needle.isPrefixOf t)

/-- Case-insensitive substring search: model of
`re.search(pattern, text, re.I)` for a pattern that is a regex-literal word
such as `linkedin` or `linkedin\.com/in/`. -/
def containsSubCI (hay needle : List Char) : Bool :=
  containsSub (lowerList hay) (lowerList needle)

/-- One pass of `re.sub(r"\s+", " ", t)`: every maximal run of whitespace is
replaced by a single space.  The flag records whether the previously emitted
character belonged to a whitespace run still being collapsed. -/
def collapseWs : Bool → List Char → List Char
  | _, [] => []
  | prevWs, c :: cs =>
    if isWs c then
      if prevWs then collapseWs true cs
      else ' ' :: collapseWs true cs
    else c :: collapseWs false cs

/-- Remove a trailing whitespace run (the right half of `str.strip()`). -/
def dropTrailWs : List Char → List Char
  | [] => []
  | c :: cs =>
    match dropTrailWs cs with
    | [] => if isWs c then [] else [c]
    | r => c :: r

/-- Python `str.strip()`: drop leading and trailing whitespace runs. -/
def stripWs (l : List Char) : List Char := dropTrailWs (l.dropWhile isWs)

/-- Embedding of `normalize_text` (identical in `src/main/utils.py` line 422
and `src/main/score_utils.py` line 206):
`re.sub(r"\s+", " ", (t or "")).strip().lower()`. -/
def normalizeList (l : List Char) : List Char :=
  lowerList (stripWs (collapseWs false l))

/-- `normalize_text` on `String` (the Python signature). -/
def normalize_text (t : String) : String := ⟨normalizeList t.data⟩

/-- Embedding of `get_grade_tag` (identical thresholds in
`src/main/utils.py` line 211 and `src/main/score_utils.py` line 109; the
`float(score or 0)` in the former only maps the falsy inputs `0`/`None` to
`0` and is numerically the identity on every number). -/
def get_grade_tag (score : ℚ) : String :=
  if score ≥ 85 then "Excellent"
  else if score ≥ 70 then "Good"
  else if score ≥ 50 then "Average"
  else "Poor"

/-- Python 3 `round(x)` on an exactly-represented value: round half to even.
Every value rounded by the engine is a rational at distance at least `1/6`
from a half-integer or an exact multiple of `1/2`, so binary-float noise in
the source can never flip a rounding decision and this exact model is
faithful. -/
def roundHalfEven (q : ℚ) : ℤ :=
  let f := ⌊q⌋
  let r := q - (f : ℚ)
  if r < 1/2 then f
  else if 1/2 < r then f + 1
  else if f % 2 = 0 then f else f + 1

/-- Embedding of `ROLE_KEYWORDS` (identical in `src/main/utils.py` line 485
and `src/main/score_utils.py` line 215), in dict insertion order. -/
def ROLE_KEYWORDS : List (String × List String) :=
  [("software engineer", ["python","java","javascript","react","node","docker","kubernetes","microservices","rest","graphql","aws","gcp","ci/cd","unit testing"]),
   ("data scientist", ["python","pandas","numpy","sklearn","tensorflow","pytorch","nlp","cv","statistics","sql","experiment","a/b testing","data visualization"]),
   ("devops engineer", ["ci/cd","docker","kubernetes","terraform","ansible","aws","gcp","azure","monitoring","prometheus","grafana","helm","sre"]),
   ("web developer", ["html","css","javascript","react","next.js","vue","node","express","rest","graphql","responsive","seo"]),
   ("mobile app developer", ["android","ios","kotlin","swift","flutter","react native","firebase","push notifications","play store","app store"]),
   ("human resources", ["recruitment","onboarding","payroll","employee engagement","hrms","policy","compliance","talent acquisition","grievance","training"]),
   ("marketing", ["seo","sem","campaign","content","email marketing","social media","analytics","branding","roi","conversion","google ads"]),
   ("sales", ["crm","pipeline","lead generation","negotiation","quota","prospecting","closing","upsell","cross-sell","demo"]),
   ("finance", ["budgeting","forecasting","reconciliation","audit","financial analysis","p&l","variance","sap","tally","excel"]),
   ("customer service", ["crm","zendesk","freshdesk","sla","csat","ticketing","call handling","escalation","knowledge base","communication"])]

/-- Embedding of `keyword_match_rate` (identical in `src/main/utils.py`
line 426 and `src/main/score_utils.py` line 209): the empty keyword list
yields `0.0`, otherwise the number of keywords whose lower-cased form is a
substring of the normalized text, divided by `max(1, len(target_keywords))`. -/
def keyword_match_rate (text : String) (target_keywords : List String) : ℚ :=
  if target_keywords = [] then 0
  else
    let t := normalizeList text.data
    let hits := target_keywords.countP
      (fun kw => containsSub t (lowerList kw.data))
    (hits : ℚ) / (max 1 target_keywords.length : ℚ)

/-- Role resolution performed inside `derive_resume_metrics`
(`src/main/utils.py` line 519): the first `ROLE_KEYWORDS` key that is a
substring of the lower-cased caller-supplied role title. -/
def resolveRole (role_title : String) : Option String :=
  (ROLE_KEYWORDS.map (fun p => p.1)).find?
    (fun rk => containsSub (lowerList role_title.data) rk.data)

/-- The `keyword_match_rate` fragment of `derive_resume_metrics`
(`src/main/utils.py` lines 519-521, identically `src/main/score_utils.py`
lines 244-246): resolve the role, look its keywords up (empty on a miss) and
compute the rate, forcing `0.0` on an empty keyword list. -/
def deriveKmr (resume_text : String) (role_title : String) : ℚ :=
  let base_role := resolveRole role_title
  let kws := match base_role with
    | some r => ((ROLE_KEYWORDS.lookup r).getD [])
    | none => []
  if kws ≠ [] then keyword_match_rate resume_text kws else 0

/-- The metrics dict produced by `derive_resume_metrics` and consumed by
`ats_resume_scoring` (fixed key set, so a structure).  Ratio fields are
Python floats, modelled over `ℚ`; `pages` and `unique_skills_count` are
Python ints. -/
structure Metrics where
  sections_present : Bool
  single_column : Bool
  text_extractable : Bool
  action_verbs_per_bullet : ℚ
  quantified_bullets_ratio : ℚ
  keyword_match_rate : ℚ
  pages : ℤ
  avg_bullets_per_job : ℚ
  repetition_rate : ℚ
  jargon_rate : ℚ
  unique_skills_count : ℤ

/-- One entry of the `items` list built by `ats_resume_scoring`. -/
structure AtsItem where
  name : String
  earned : ℤ
  maxPts : ℤ

/-- The breakdown dict returned by `ats_resume_scoring`: its `items`,
`subtotal` (`earned`/`max`) and `score_100` keys. -/
structure AtsBreakdown where
  items : List AtsItem
  subtotal_earned : ℤ
  subtotal_max : ℤ
  score_100 : ℤ

/-- Sub-criterion 1 of `ats_resume_scoring` (layout and structure, max 3). -/
def pts_layout (m : Metrics) : ℤ :=
  (if m.sections_present then 1 else 0) + (if m.single_column then 1 else 0) +
  (if m.text_extractable then 1 else 0)

/-- Sub-criterion 2 of `ats_resume_scoring` (action verbs and quantified
results, max 4). -/
def pts_actions (m : Metrics) : ℤ :=
  (if m.action_verbs_per_bullet ≥ 0.8 then 2
   else if m.action_verbs_per_bullet ≥ 0.5 then 1 else 0) +
  (if m.quantified_bullets_ratio ≥ 0.6 then 2
   else if m.quantified_bullets_ratio ≥ 0.3 then 1 else 0)

/-- Sub-criterion 3 of `ats_resume_scoring` (keyword alignment, max 3). -/
def pts_keywords (m : Metrics) : ℤ :=
  if m.keyword_match_rate ≥ 0.75 then 3
  else if m.keyword_match_rate ≥ 0.5 then 2
  else if m.keyword_match_rate ≥ 0.3 then 1 else 0

/-- Sub-criterion 4 of `ats_resume_scoring` (brevity, max 2). -/
def pts_brev (m : Metrics) : ℤ :=
  (if m.pages ≤ 2 then 1 else 0) + (if m.avg_bullets_per_job ≤ 7 then 1 else 0)

/-- Sub-criterion 5 of `ats_resume_scoring` (minimal jargon / repetition,
max 3). -/
def pts_clean (m : Metrics) : ℤ :=
  (if m.repetition_rate ≤ 0.10 then 1 else 0) +
  (if m.jargon_rate ≤ 0.15 then 1 else 0) +
  (if m.unique_skills_count ≥ 8 then 1 else 0)

/-- Embedding of `ats_resume_scoring` (identical in `src/main/utils.py`
lines 434-479 and `src/main/score_utils.py` lines 268-303): a 15-point
rubric normalized to 0..100 via `round(total / 15 * 100)`. -/
def ats_resume_scoring (m : Metrics) : AtsBreakdown :=
  let total := pts_layout m + pts_actions m + pts_keywords m + pts_brev m + pts_clean m
  { items :=
      [⟨"ATS-friendly layout & structure", pts_layout m, 3⟩,
       ⟨"Action verbs & quantified results", pts_actions m, 4⟩,
       ⟨"Job-relevant keyword alignment", pts_keywords m, 3⟩,
       ⟨"Brevity & conciseness", pts_brev m, 2⟩,
       ⟨"Minimal jargon / repetition", pts_clean m, 3⟩],
    subtotal_earned := total,
    subtotal_max := 15,
    score_100 := roundHalfEven ((total : ℚ) / 15 * 100) }

/-- Characters admitted by the class `[^\s\"]` of the URL pattern in
`extract_and_identify_links` (`src/main/utils.py` line 111). -/
def isUrlChar (c : Char) : Bool := !isWs c && c ≠ '"'

/-- Try to match `https?://[^\s\"]+` at the head of `l`; on success return
the matched text and the remaining suffix.  The optional `s` is committed
greedily; since a failed tail cannot be rescued by dropping the `s` (the
character after `http` would have to be both `s` and `:`), no backtracking
arises. -/
def matchUrlAt (l : List Char) : Option (List Char × List Char) :=
  if "https://".data.isPrefixOf l then
    let after := l.drop 8
    let run := after.takeWhile isUrlChar
    if run = [] then none
    else some ("https://".data ++ run, after.drop run.length)
  else if "http://".data.isPrefixOf l then
    let after := l.drop 7
    let run := after.takeWhile isUrlChar
    if run = [] then none
    else some ("http://".data ++ run, after.drop run.length)
  else none

/-- Leftmost, non-overlapping scan of `re.findall` for the URL pattern,
driven by fuel (one unit per character position, which bounds the scan). -/
def findUrlsFuel : Nat → List Char → List (List Char)
  | 0, _ => []
  | _, [] => []
  | fuel + 1, c :: cs =>
    match matchUrlAt (c :: cs) with
    | some (m, rest) => m :: findUrlsFuel fuel rest
    | none => findUrlsFuel fuel cs

/-- `re.findall(r"https?://[^\s\"]+", text)` from
`extract_and_identify_links`. -/
def findUrls (l : List Char) : List (List Char) := findUrlsFuel l.length l

/-- Characters of the local-part class `[a-zA-Z0-9._%+-]` of the email
pattern. -/
def isEmailA (c : Char) : Bool :=
  c.isAlphanum || c = '.' || c = '_' || c = '%' || c = '+' || c = '-'

/-- Characters of the domain class `[a-zA-Z0-9.-]` of the email pattern. -/
def isEmailB (c : Char) : Bool := c.isAlphanum || c = '.' || c = '-'

/-- Basic-latin letter test, the class `[a-zA-Z]` of the email pattern. -/
def isAsciiAlpha (c : Char) : Bool := c.isAlpha

/-- Pick the split of the greedy domain run `brun` for
`[a-zA-Z0-9.-]+\.[a-zA-Z]{2,}`: the largest index `k ≥ 1` with `brun[k] = '.'`
followed by at least two letters (the `+` is greedy, so regex backtracking
yields the largest such `k`). -/
def pickDot (brun : List Char) : Option Nat :=
  (List.range brun.length).reverse.find?
    (fun k => decide (1 ≤ k) && brun.getD k ' ' = '.' &&
      isAsciiAlpha (brun.getD (k + 1) ' ') && isAsciiAlpha (brun.getD (k + 2) ' '))

/-- Try to match the email pattern
`[a-zA-Z0-9._%+-]+@[a-zA-Z0-9.-]+\.[a-zA-Z]{2,}` at the head of `l`.  The
local part is a maximal run of its class (no backtracking helps, as `@` is
outside the class); the domain is the maximal class run split at the last
feasible dot; the final letter run is greedy. -/
def matchEmailAt (l : List Char) : Option (List Char × List Char) :=
  let run := l.takeWhile isEmailA
  if run = [] then none
  else
    match l.drop run.length with
    | '@' :: t =>
      let brun := t.takeWhile isEmailB
      match pickDot brun with
      | some k =>
        let alphaRun := (brun.drop (k + 1)).takeWhile isAsciiAlpha
        let m := run ++ '@' :: brun.take k ++ '.' :: alphaRun
        some (m, l.drop m.length)
      | none => none
    | _ => none

/-- Leftmost, non-overlapping `re.findall` scan for the email pattern. -/
def findEmailsFuel : Nat → List Char → List (List Char)
  | 0, _ => []
  | _, [] => []
  | fuel + 1, c :: cs =>
    match matchEmailAt (c :: cs) with
    | some (m, rest) => m :: findEmailsFuel fuel rest
    | none => findEmailsFuel fuel cs

/-- `re.findall(email_pattern, text)` from `extract_and_identify_links`. -/
def findEmails (l : List Char) : List (List Char) := findEmailsFuel l.length l

/-- The `_classify` helper of `extract_and_identify_links`
(`src/main/utils.py` lines 117-126).  The alternation
`portfolio|netlify|vercel|\.me|\.io|\.dev|\.app` under `re.I` is an
any-of-these case-insensitive substring test. -/
def pyClassify (u : List Char) : String :=
  if containsSub u "github.com".data then "GitHub"
  else if containsSub u "linkedin.com".data then "LinkedIn"
  else if containsSubCI u "portfolio".data || containsSubCI u "netlify".data ||
          containsSubCI u "vercel".data || containsSubCI u ".me".data ||
          containsSubCI u ".io".data || containsSubCI u ".dev".data ||
          containsSubCI u ".app".data then "Portfolio"
  else if "mailto:".data.isPrefixOf u then "Email"
  else "Other"

/-- Model of the `BeautifulSoup(text, "html.parser")` call followed by
`soup.find_all("a", href=True)` in `extract_and_identify_links`, for simple
well-formed `<a ... href=...>` anchors: scan for `<a` followed by a
non-name character, look for `href=` inside the tag body up to the closing
`>`, and take the quoted (or space-delimited) attribute value.  On text with
no `<a` tag — every input appearing in the theorems below — it returns the
empty list, exactly as the library does. -/
def hrefOfTagBody (body : List Char) : Option (List Char) :=
  let rec seek : List Char → Option (List Char)
    | [] => none
    | c :: cs =>
      if "href=".data.isPrefixOf (c :: cs) then
        match cs.drop 4 with
        | '"' :: v => some (v.takeWhile (fun d => d ≠ '"'))
        | '\'' :: v => some (v.takeWhile (fun d => d ≠ '\''))
        | v => some (v.takeWhile (fun d => !isWs d))
      else seek cs
  seek body

/-- Anchor extraction proper (see `hrefOfTagBody`). -/
def anchorHrefsFuel : Nat → List Char → List (List Char)
  | 0, _ => []
  | _, [] => []
  | fuel + 1, c :: cs =>
    if c = '<' && (lowerList (cs.take 1)) = ['a'] &&
       (match cs.drop 1 with
        | [] => false
        | d :: _ => isWs d || d = '>') then
      let body := cs.takeWhile (fun d => d ≠ '>')
      match hrefOfTagBody body with
      | some h => h :: anchorHrefsFuel fuel (cs.drop body.length)
      | none => anchorHrefsFuel fuel (cs.drop body.length)
    else anchorHrefsFuel fuel cs

/-- Hrefs of all anchors in the text, in document order. -/
def anchorHrefs (l : List Char) : List (List Char) := anchorHrefsFuel l.length l

/-- One `{url, type}` entry of the list returned by
`extract_and_identify_links`; `url` is `None` only for the inferred
LinkedIn entry. -/
structure LinkEntry where
  url : Option String
  kind : String
deriving DecidableEq, Repr

/-- The anchor loop of `extract_and_identify_links`: append each href not
already among the collected URLs, updating the seen set. -/
def addAnchors : List (List Char) → List LinkEntry → List (List Char) → List LinkEntry
  | seen, acc, [] => let _ := seen; acc
  | seen, acc, h :: hs =>
    if seen.contains h then addAnchors seen acc hs
    else addAnchors (h :: seen) (acc ++ [⟨some ⟨h⟩, pyClassify h⟩]) hs

/-- Embedding of `extract_and_identify_links` (`src/main/utils.py`
lines 105-148): regex-found URLs (classified), then emails as `mailto:`
entries, then anchor hrefs deduplicated against the URLs already collected,
then one inferred LinkedIn entry when the text mentions `linkedin` but no
entry was typed `LinkedIn`. -/
def extract_and_identify_links (text : String) : List LinkEntry :=
  let found_urls := findUrls text.data
  let found_emails := findEmails text.data
  let urlEntries : List LinkEntry :=
    found_urls.map (fun u => ⟨some ⟨u⟩, pyClassify u⟩)
  let emailEntries : List LinkEntry :=
    found_emails.map (fun e => ⟨some ⟨"mailto:".data ++ e⟩, "Email"⟩)
  let base := urlEntries ++ emailEntries
  let existing := found_urls ++ found_emails.map (fun e => "mailto:".data ++ e)
  let withAnchors := addAnchors existing base (anchorHrefs text.data)
  if containsSubCI text.data "linkedin".data &&
     !(withAnchors.any (fun d => d.kind = "LinkedIn")) then
    withAnchors ++ [⟨none, "LinkedIn (Inferred)"⟩]
  else withAnchors

/-- Word-character test on an optional neighbouring character (`none` stands
for the string edge, which counts as a non-word position for `\b`). -/
def wB (o : Option Char) : Bool :=
  match o with
  | none => false
  | some c => isWordChar c

/-- Does `\b w \b` match at the head of `rest`, with `prev` the character
just before it?  A `\b` holds where word-ness flips, so the literal `w`
(assumed nonempty) matches when it is a case-insensitive prefix and the
word-ness of `prev` differs from that of the first character of `w`, and
likewise at its right edge. -/
def bMatchAt (prev : Option Char) (w rest : List Char) : Bool :=
  (lowerList w).isPrefixOf (lowerList rest) &&
  (wB prev != wB w.head?) &&
  (wB ((w.getLast?).map id) != wB ((rest.drop w.length).head?))

/-- `re.search(r"\b" + w + r"\b", text, re.I)` for a regex-literal word `w`:
scan every position, tracking the previous character. -/
def bSearchAux (w : List Char) : Option Char → List Char → Bool
  | _, [] => false
  | prev, c :: cs => bMatchAt prev w (c :: cs) || bSearchAux w (some c) cs

/-- Word-boundary search from the start of the text. -/
def bSearch (w : List Char) (text : List Char) : Bool := bSearchAux w none text

/-- The certification regex `\b(certification|certified|course|certificate)\b`
(case-insensitive), used by both implementations: an alternation under
`re.search` is satisfiability of any alternative. -/
def certSearch (text : List Char) : Bool :=
  bSearch "certification".data text || bSearch "certified".data text ||
  bSearch "course".data text || bSearch "certificate".data text

/-- Host-label characters of the class `[a-z0-9\-]` under `re.I`, applied to
already lower-cased text. -/
def isHostChar (c : Char) : Bool :=
  (97 ≤ c.toNat && c.toNat ≤ 122) || (48 ≤ c.toNat && c.toNat ≤ 57) || c = '-'

/-- The TLD alternation of the utils portfolio regex. -/
def tldList : List String :=
  ["com", "io", "dev", "app", "me", "net", "in", "org"]

/-- Does `https?://[a-z0-9\-]+\.(com|io|dev|app|me|net|in|org)` (under `re.I`)
match at the head of the already lower-cased `l`?  The host class excludes
`.`, so the greedy `+` run is maximal and the dot, if any, is the character
right after it; no backtracking can produce a different dot. -/
def uPortfolioAt (l : List Char) : Bool :=
  let tail :=
    if "https://".data.isPrefixOf l then some (l.drop 8)
    else if "http://".data.isPrefixOf l then some (l.drop 7)
    else none
  match tail with
  | none => false
  | some t =>
    let run := t.takeWhile isHostChar
    run ≠ [] &&
    (match t.drop run.length with
     | '.' :: rest => tldList.any (fun tld => tld.data.isPrefixOf rest)
     | _ => false)

/-- Position scan for the utils portfolio regex. -/
def uPortfolioScan : List Char → Bool
  | [] => false
  | c :: cs => uPortfolioAt (c :: cs) || uPortfolioScan cs

/-- Python truthiness of an optional string (`bool(x)`): `None` and the
empty string are falsy. -/
def truthyStr (o : Option String) : Bool :=
  match o with
  | none => false
  | some s => !s.isEmpty

namespace Utils

/-- Embedding of `TECHNICAL_WEIGHTS` (`src/main/utils.py` lines 20-27), in
dict insertion order. -/
def TECHNICAL_WEIGHTS : List (String × ℤ) :=
  [("GitHub Profile", 25), ("LeetCode/DSA Skills", 20), ("Portfolio Website", 20),
   ("LinkedIn Profile", 15), ("Resume (ATS Score)", 10), ("Certifications & Branding", 10)]

/-- Dict lookup `weights[k]` (all keys used by the source are present, so the
default can never fire). -/
def lookupW (k : String) : ℤ := ((TECHNICAL_WEIGHTS.lookup k).getD 0)

/-- `github_presence` of `calculate_dynamic_ats_score`
(`src/main/utils.py` line 256): `bool(github_username)` — the resume text is
not consulted. -/
def github_presence (github_username : Option String) : Bool :=
  truthyStr github_username

/-- `leetcode_presence` (`src/main/utils.py` line 257):
`bool(leetcode_username)`. -/
def leetcode_presence (leetcode_username : Option String) : Bool :=
  truthyStr leetcode_username

/-- `portfolio_presence` (`src/main/utils.py` line 258):
`re.search(r"https?://[a-z0-9\-]+\.(com|io|dev|app|me|net|in|org)", text, re.I)`. -/
def portfolio_presence (text : String) : Bool :=
  uPortfolioScan (lowerList text.data)

/-- `linkedin_presence` (`src/main/utils.py` line 259):
`re.search(r"linkedin\.com/in/", text, re.I)`. -/
def linkedin_presence (text : String) : Bool :=
  containsSubCI text.data "linkedin.com/in/".data

/-- `cert_presence` (`src/main/utils.py` line 260):
`re.search(r"\b(certification|certified|course|certificate)\b", text, re.I)`. -/
def cert_presence (text : String) : Bool :=
  certSearch text.data

/-- A sub-criterion dict of a section in the utils implementation. -/
structure SubCriterion where
  name : String
  score : ℤ
  weight : ℤ
  insight : String
deriving DecidableEq, Repr

/-- A section dict of the utils implementation.  Only the Certifications
section carries a `recommendations` key; the field is `[]` for the others. -/
structure Section where
  score : ℤ
  grade : String
  weight : ℤ
  sub_criteria : List SubCriterion
  recommendations : List String
deriving DecidableEq, Repr

/-- The report dict returned by `calculate_dynamic_ats_score` in
`src/main/utils.py`. -/
structure Report where
  sections : List (String × Section)
  total_score : ℤ
  overall_score_average : ℤ
  overall_grade : String
  suggestions : List String
deriving DecidableEq, Repr

/-- The branch of `get_cert_suggestions` taken for the "technical" domain
(`src/main/utils.py` lines 229-234), the only call made from the engine. -/
def certSuggestionsTechnical : List String :=
  ["AWS Certified Developer – AWS",
   "Microsoft Certified: Azure Developer Associate",
   "Certified Kubernetes Application Developer (CKAD)"]

/-- Embedding of `calculate_dynamic_ats_score` (`src/main/utils.py`
lines 242-396).  `extracted_links` is accepted and, as in the source, never
read.  Sections are an insertion-ordered association list; suggestion
strings are accumulated in source order. -/
def calculate_dynamic_ats_score (resume_text : String)
    (github_username : Option String) (leetcode_username : Option String)
    (extracted_links : List (Option String × String)) : Report :=
  let _ := extracted_links
  let ghP := github_presence github_username
  let lcP := leetcode_presence leetcode_username
  let pfP := portfolio_presence resume_text
  let liP := linkedin_presence resume_text
  let certP := cert_presence resume_text
  let github_criteria : List SubCriterion :=
    if ghP then
      [⟨"Public link present", 3, 3, "GitHub link detected."⟩,
       ⟨"Recent activity (assumed)", 4, 5, "Add recent commits/pins."⟩,
       ⟨"Domain-relevant projects", 4, 6, "Keep repos aligned to role."⟩]
    else
      [⟨"Public link present", 0, 3, "Add your GitHub link."⟩]
  let github_score : ℤ := if ghP then (github_criteria.map (fun c => c.score)).sum else 0
  let leetcode_criteria : List SubCriterion :=
    if lcP then
      [⟨"Link present", 2, 2, "Profile link detected."⟩,
       ⟨"Problem variety (assumed)", 3, 5, "Cover DP/Graphs/Greedy."⟩,
       ⟨"Consistency (assumed)", 3, 4, "Regular practice helps."⟩]
    else
      [⟨"Link present", 0, 2, "Include your LeetCode link."⟩]
  let leetcode_score : ℤ := if lcP then (leetcode_criteria.map (fun c => c.score)).sum else 0
  let portfolio_criteria : List SubCriterion :=
    if pfP then
      [⟨"Link present", 2, 2, "Portfolio detected."⟩,
       ⟨"Project write-ups (assumed)", 3, 4, "Explain problems & impact."⟩,
       ⟨"Interactive demos (assumed)", 2, 3, "Add live demos if possible."⟩]
    else
      [⟨"Link present", 0, 2, "Add a simple portfolio site."⟩]
  let portfolio_score : ℤ := if pfP then (portfolio_criteria.map (fun c => c.score)).sum else 0
  let linkedin_score : ℤ := if liP then 3 else 0
  let linkedin_criteria : List SubCriterion :=
    [⟨"Public link present", linkedin_score, 3,
      if liP then "LinkedIn detected." else "Add a public LinkedIn URL to boost visibility."⟩]
  let resume_section_score : ℤ := 65
  let resume_criteria : List SubCriterion :=
    [⟨"ATS-friendly layout", 3, 3, "Readable fonts, minimal columns."⟩,
     ⟨"Action verbs & results", 4, 4, "Quantify achievements."⟩,
     ⟨"Keyword alignment", 3, 3, "Mirror JD keywords."⟩,
     ⟨"Brevity", 2, 2, "Keep to 1–2 pages."⟩,
     ⟨"Clarity", 3, 3, "Avoid jargon/repetition."⟩]
  let cert_score : ℤ := if certP then 65 else 0
  let cert_criteria : List SubCriterion :=
    if certP then
      [⟨"Role-relevant", 5, 5, "Keep recent & relevant."⟩,
       ⟨"Credible issuer", 5, 5, "Prefer AWS, MS, Coursera, etc."⟩,
       ⟨"Recency", 3, 3, "Within 2 years preferred."⟩,
       ⟨"Completeness", 2, 2, "Title + issuer clearly listed."⟩]
    else
      [⟨"Certifications present", 0, 15, "Consider 1–2 role-aligned certs."⟩]
  let cert_recs : List String := if certP then [] else certSuggestionsTechnical
  let sections : List (String × Section) :=
    [("GitHub Profile",
      ⟨github_score, get_grade_tag (github_score : ℚ), lookupW "GitHub Profile",
       github_criteria, []⟩),
     ("LeetCode/DSA Skills",
      ⟨leetcode_score, get_grade_tag (leetcode_score : ℚ), lookupW "LeetCode/DSA Skills",
       leetcode_criteria, []⟩),
     ("Portfolio Website",
      ⟨portfolio_score, get_grade_tag (portfolio_score : ℚ), lookupW "Portfolio Website",
       portfolio_criteria, []⟩),
     ("LinkedIn",
      ⟨linkedin_score, get_grade_tag (linkedin_score : ℚ), 3, linkedin_criteria, []⟩),
     ("Resume (ATS Score)",
      ⟨resume_section_score, get_grade_tag (resume_section_score : ℚ),
       lookupW "Resume (ATS Score)", resume_criteria, []⟩),
     ("Certifications & Branding",
      ⟨cert_score, get_grade_tag (cert_score : ℚ), lookupW "Certifications & Branding",
       cert_criteria, cert_recs⟩)]
  let suggestions : List String :=
    (if ghP then [] else ["Add a GitHub profile link with pinned, recent projects."]) ++
    (if lcP then [] else ["Include a LeetCode link to showcase DSA practice."]) ++
    (if pfP then [] else ["Publish a simple portfolio with 2–3 best projects."]) ++
    (if liP then [] else ["Add a public LinkedIn link (custom URL preferred)."])
  let total_score : ℚ :=
    (sections.map (fun p => (p.2.score : ℚ) * ((p.2.weight : ℚ) / 100))).sum
  let all_scores : List ℤ := sections.map (fun p => p.2.score)
  let overall_avg : ℤ :=
    roundHalfEven ((all_scores.sum : ℚ) / (max 1 all_scores.length : ℚ))
  { sections := sections,
    total_score := roundHalfEven total_score,
    overall_score_average := overall_avg,
    overall_grade := get_grade_tag (overall_avg : ℚ),
    suggestions := suggestions }

end Utils

namespace ScoreUtils

/-- Embedding of `TECHNICAL_WEIGHTS` (`src/main/score_utils.py`
lines 136-143), in dict insertion order; note the key `LinkedIn` (the utils
table says `LinkedIn Profile`). -/
def TECHNICAL_WEIGHTS : List (String × ℤ) :=
  [("GitHub Profile", 25), ("LeetCode/DSA Skills", 20), ("Portfolio Website", 20),
   ("LinkedIn", 15), ("Resume (ATS Score)", 10), ("Certifications & Branding", 10)]

/-- An extracted-link dict as consumed by `_has_link`: only its `type` value
is read (via `.get`, defaulting to the empty string). -/
structure Link where
  url : String
  kind : String
deriving DecidableEq, Repr

/-- The `_has_link` helper (`src/main/score_utils.py` lines 156-157):
case-insensitive comparison of each link's `type` with the wanted kind. -/
def hasLink (extracted_links : List Link) (kind : String) : Bool :=
  extracted_links.any (fun lk => lowerList lk.kind.data = lowerList kind.data)

/-- `has_github` (`src/main/score_utils.py` line 160):
`bool(github_username) or ("github.com" in text.lower())`. -/
def has_github (github_username : Option String) (text : String) : Bool :=
  truthyStr github_username || containsSub (lowerList text.data) "github.com".data

/-- `has_lc` (`src/main/score_utils.py` line 161):
`bool(leetcode_username) or ("leetcode.com" in text.lower())`. -/
def has_lc (leetcode_username : Option String) (text : String) : Bool :=
  truthyStr leetcode_username || containsSub (lowerList text.data) "leetcode.com".data

/-- `has_portfolio` (`src/main/score_utils.py` line 162):
`re.search(r"\b(netlify|vercel|github\.io|\.me|\.io|\.dev|\.app)\b", text, re.I)`. -/
def has_portfolio (text : String) : Bool :=
  bSearch "netlify".data text.data || bSearch "vercel".data text.data ||
  bSearch "github.io".data text.data || bSearch ".me".data text.data ||
  bSearch ".io".data text.data || bSearch ".dev".data text.data ||
  bSearch ".app".data text.data

/-- `has_linkedin` (`src/main/score_utils.py` line 163):
`_has_link("LinkedIn") or ("linkedin.com/in/" in text.lower())`. -/
def has_linkedin (extracted_links : List Link) (text : String) : Bool :=
  hasLink extracted_links "LinkedIn" ||
  containsSub (lowerList text.data) "linkedin.com/in/".data

/-- `has_certs` (`src/main/score_utils.py` line 164): the certification
word-boundary regex. -/
def has_certs (text : String) : Bool := certSearch text.data

/-- A section dict of the score_utils implementation: `score` and `grade`
only (no weight, no sub-criteria). -/
structure Section where
  score : ℤ
  grade : String
deriving DecidableEq, Repr

/-- The report dict returned by `calculate_dynamic_ats_score` in
`src/main/score_utils.py`. -/
structure Report where
  sections : List (String × Section)
  total_score : ℤ
  overall_score_average : ℤ
  overall_grade : String
  suggestions : List String
deriving DecidableEq, Repr

/-- Embedding of `calculate_dynamic_ats_score` (`src/main/score_utils.py`
lines 145-199).  The `domain` parameter is accepted and, as in the source,
never read. -/
def calculate_dynamic_ats_score (resume_text : String)
    (github_username : Option String) (leetcode_username : Option String)
    (extracted_links : List Link) (domain : String) : Report :=
  let _ := domain
  let ghP := has_github github_username resume_text
  let lcP := has_lc leetcode_username resume_text
  let pfP := has_portfolio resume_text
  let liP := has_linkedin extracted_links resume_text
  let certP := has_certs resume_text
  let mkSec : ℤ → Section := fun score => ⟨score, get_grade_tag (score : ℚ)⟩
  let sections : List (String × Section) :=
    [("GitHub Profile", mkSec (if ghP then 70 else 0)),
     ("LeetCode/DSA Skills", mkSec (if lcP then 60 else 0)),
     ("Portfolio Website", mkSec (if pfP then 55 else 0)),
     ("LinkedIn", mkSec (if liP then 60 else 0)),
     ("Resume (ATS Score)", mkSec 60),
     ("Certifications & Branding", mkSec (if certP then 50 else 0))]
  let suggestions : List String :=
    (if ghP then [] else ["Add a public GitHub link with recent activity."]) ++
    (if lcP then [] else ["Include your LeetCode (or equivalent) problem-solving profile."]) ++
    (if pfP then [] else ["Publish a portfolio (Netlify/Vercel/GitHub Pages) with 2–3 write-ups."]) ++
    (if liP then [] else ["Link a public LinkedIn profile with a clear headline/summary."]) ++
    (if certP then [] else ["Add 1–2 recent role-relevant certifications."])
  let total_score : ℚ :=
    (TECHNICAL_WEIGHTS.map (fun p =>
      match sections.lookup p.1 with
      | some s => (s.score : ℚ) * ((p.2 : ℚ) / 100)
      | none => 0)).sum
  let overall_avg : ℤ :=
    roundHalfEven (((sections.map (fun p => p.2.score)).sum : ℚ) /
      (max 1 sections.length : ℚ))
  { sections := sections,
    total_score := roundHalfEven total_score,
    overall_score_average := overall_avg,
    overall_grade := get_grade_tag (overall_avg : ℚ),
    suggestions := suggestions }

end ScoreUtils

/-- Formalization helper: no two adjacent whitespace characters occur. -/
def noDoubleWs : List Char → Bool
  | [] => true
  | [_] => true
  | a :: b :: t => (!(isWs a && isWs b)) && noDoubleWs (b :: t)

/-- Formalization helper: every whitespace character is a plain space. -/
def wsOnlySpace (l : List Char) : Bool := l.all (fun c => !isWs c || c = ' ')

/-- Formalization helper: the list does not start with whitespace. -/
def headNotWs : List Char → Bool
  | [] => true
  | c :: _ => !isWs c

/-- Formalization helper: the list does not end with whitespace. -/
def lastNotWs : List Char → Bool
  | [] => true
  | [c] => !isWs c
  | _ :: c :: t => lastNotWs (c :: t)

theorem toNat_ofNat_lt {n : Nat} (h : n < 55296) : (Char.ofNat n).toNat = n := by
  rw [Char.ofNat, dif_pos (Or.inl h)]
  rfl

theorem lowerChar_toNat (c : Char) :
    (lowerChar c).toNat =
      if 65 ≤ c.toNat ∧ c.toNat ≤ 90 then c.toNat + 32 else c.toNat := by
  unfold lowerChar
  split_ifs with h
  · exact toNat_ofNat_lt (by omega)
  · rfl

theorem isWs_iff {c : Char} :
    isWs c = true ↔ (c.toNat = 32 ∨ c.toNat = 9 ∨ c.toNat = 10 ∨ c.toNat = 13 ∨
      c.toNat = 11 ∨ c.toNat = 12) := by
  simp only [isWs, Bool.or_eq_true, decide_eq_true_eq]
  omega

theorem isWs_lowerChar (c : Char) : isWs (lowerChar c) = isWs c := by
  rw [Bool.eq_iff_iff, isWs_iff, isWs_iff, lowerChar_toNat]
  split_ifs with h <;> omega

theorem lowerChar_idem (c : Char) : lowerChar (lowerChar c) = lowerChar c := by
  by_cases h : 65 ≤ c.toNat ∧ c.toNat ≤ 90
  · have h1 : (lowerChar c).toNat = c.toNat + 32 := by
      rw [lowerChar_toNat, if_pos h]
    show (if _ then _ else _) = _
    rw [if_neg (by rw [h1]; omega)]
  · show (if _ then _ else _) = _
    rw [if_neg (by rw [lowerChar_toNat, if_neg h]; exact h)]

theorem noDoubleWs_cons_of_not {a : Char} {l : List Char} (ha : isWs a = false)
    (hl : noDoubleWs l = true) : noDoubleWs (a :: l) = true := by
  cases l with
  | nil => rfl
  | cons b t => simp [noDoubleWs, ha, hl]

theorem noDoubleWs_cons_of_head {a : Char} {l : List Char}
    (hh : headNotWs l = true) (hl : noDoubleWs l = true) :
    noDoubleWs (a :: l) = true := by
  cases l with
  | nil => rfl
  | cons b t =>
    simp only [headNotWs, Bool.not_eq_true'] at hh
    simp [noDoubleWs, hh, hl]

theorem noDoubleWs_of_cons {a : Char} {l : List Char}
    (h : noDoubleWs (a :: l) = true) : noDoubleWs l = true := by
  cases l with
  | nil => rfl
  | cons b t =>
    simp only [noDoubleWs, Bool.and_eq_true] at h
    exact h.2

theorem headNotWs_of_noDoubleWs {a : Char} {l : List Char} (ha : isWs a = true)
    (h : noDoubleWs (a :: l) = true) : headNotWs l = true := by
  cases l with
  | nil => rfl
  | cons b t =>
    simp only [noDoubleWs, Bool.and_eq_true, Bool.not_eq_true', Bool.and_eq_false_iff] at h
    rcases h.1 with hb | hb
    · rw [ha] at hb; exact absurd hb (by simp)
    · simp [headNotWs, hb]

theorem wsOnlySpace_collapseWs (b : Bool) (l : List Char) :
    wsOnlySpace (collapseWs b l) = true := by
  induction l generalizing b with
  | nil => rfl
  | cons c cs ih =>
    unfold collapseWs
    split_ifs with hc hb
    · exact ih true
    · simpa [wsOnlySpace] using ih true
    · have := ih false
      simp only [wsOnlySpace, List.all_cons, Bool.and_eq_true] at *
      exact ⟨by simp [hc], this⟩

theorem headNotWs_collapseWs_true (l : List Char) :
    headNotWs (collapseWs true l) = true := by
  induction l with
  | nil => rfl
  | cons c cs ih =>
    unfold collapseWs
    split_ifs with hc hb
    · exact ih
    · exact absurd rfl hb
    · simp [headNotWs, hc]

theorem noDoubleWs_collapseWs (b : Bool) (l : List Char) :
    noDoubleWs (collapseWs b l) = true := by
  induction l generalizing b with
  | nil => rfl
  | cons c cs ih =>
    unfold collapseWs
    split_ifs with hc hb
    · exact ih true
    · exact noDoubleWs_cons_of_head (headNotWs_collapseWs_true cs) (ih true)
    · exact noDoubleWs_cons_of_not (by simp [hc]) (ih false)

theorem collapseWs_eq_self {l : List Char} (b : Bool)
    (hws : wsOnlySpace l = true) (hnd : noDoubleWs l = true)
    (hb : b = true → headNotWs l = true) : collapseWs b l = l := by
  induction l generalizing b with
  | nil => rfl
  | cons c cs ih =>
    have hcs_ws : wsOnlySpace cs = true := by
      simp only [wsOnlySpace, List.all_cons, Bool.and_eq_true] at hws
      exact hws.2
    by_cases hc : isWs c = true
    · have hcsp : c = ' ' := by
        simp only [wsOnlySpace, List.all_cons, Bool.and_eq_true] at hws
        rcases hws with ⟨h1, _⟩
        simp only [Bool.or_eq_true, Bool.not_eq_true', decide_eq_true_eq] at h1
        rcases h1 with h | h
        · rw [hc] at h; exact absurd h (by simp)
        · exact h
      cases b with
      | true =>
        have := hb rfl
        simp [headNotWs, hc] at this
      | false =>
        unfold collapseWs
        rw [if_pos hc, if_neg (by simp)]
        rw [hcsp]
        congr 1
        exact ih true hcs_ws (noDoubleWs_of_cons hnd)
          (fun _ => headNotWs_of_noDoubleWs hc hnd)
    · unfold collapseWs
      rw [if_neg hc]
      congr 1
      exact ih false hcs_ws (noDoubleWs_of_cons hnd) (by intro h; exact absurd h (by simp))

theorem headNotWs_dropWhile (l : List Char) :
    headNotWs (l.dropWhile isWs) = true := by
  induction l with
  | nil => rfl
  | cons c cs ih =>
    rw [List.dropWhile_cons]
    split_ifs with hc
    · exact ih
    · simpa [headNotWs] using hc

theorem wsOnlySpace_dropWhile {l : List Char} (h : wsOnlySpace l = true) :
    wsOnlySpace (l.dropWhile isWs) = true := by
  induction l with
  | nil => rfl
  | cons c cs ih =>
    simp only [wsOnlySpace, List.all_cons, Bool.and_eq_true] at h
    rw [List.dropWhile_cons]
    split_ifs with hc
    · exact ih h.2
    · simp only [wsOnlySpace, List.all_cons, Bool.and_eq_true]
      exact ⟨h.1, h.2⟩

theorem noDoubleWs_dropWhile {l : List Char} (h : noDoubleWs l = true) :
    noDoubleWs (l.dropWhile isWs) = true := by
  induction l with
  | nil => rfl
  | cons c cs ih =>
    rw [List.dropWhile_cons]
    split_ifs with hc
    · exact ih (noDoubleWs_of_cons h)
    · exact h

theorem dropWhile_eq_self {l : List Char} (h : headNotWs l = true) :
    l.dropWhile isWs = l := by
  cases l with
  | nil => rfl
  | cons c cs =>
    simp only [headNotWs, Bool.not_eq_true'] at h
    rw [List.dropWhile_cons, if_neg (by simp [h])]

theorem wsOnlySpace_dropTrailWs {l : List Char} (h : wsOnlySpace l = true) :
    wsOnlySpace (dropTrailWs l) = true := by
  induction l with
  | nil => rfl
  | cons c cs ih =>
    simp only [wsOnlySpace, List.all_cons, Bool.and_eq_true] at h
    unfold dropTrailWs
    cases hr : dropTrailWs cs with
    | nil =>
      split_ifs with hc
      · rfl
      · simp only [wsOnlySpace, List.all_cons, Bool.and_eq_true]
        exact ⟨h.1, rfl⟩
    | cons r rs =>
      have := ih h.2
      rw [hr] at this
      simp only [wsOnlySpace, List.all_cons, Bool.and_eq_true] at this ⊢
      exact ⟨h.1, this⟩

theorem headNotWs_dropTrailWs {l : List Char} (h : headNotWs l = true) :
    headNotWs (dropTrailWs l) = true := by
  cases l with
  | nil => rfl
  | cons c cs =>
    simp only [headNotWs, Bool.not_eq_true'] at h
    unfold dropTrailWs
    cases hr : dropTrailWs cs with
    | nil =>
      split_ifs with hc
      · rfl
      · simp [headNotWs, h]
    | cons r rs => simp [headNotWs, h]

theorem lastNotWs_dropTrailWs (l : List Char) :
    lastNotWs (dropTrailWs l) = true := by
  induction l with
  | nil => rfl
  | cons c cs ih =>
    unfold dropTrailWs
    cases hr : dropTrailWs cs with
    | nil =>
      split_ifs with hc
      · rfl
      · simp [lastNotWs, hc]
    | cons r rs =>
      rw [hr] at ih
      simpa [lastNotWs] using ih

theorem dropTrailWs_eq_self {l : List Char} (h : lastNotWs l = true) :
    dropTrailWs l = l := by
  induction l with
  | nil => rfl
  | cons c cs ih =>
    cases cs with
    | nil =>
      simp only [lastNotWs, Bool.not_eq_true'] at h
      unfold dropTrailWs
      rw [show dropTrailWs ([] : List Char) = [] from rfl]
      simp [h]
    | cons d ds =>
      have hcs : lastNotWs (d :: ds) = true := h
      have := ih hcs
      unfold dropTrailWs
      rw [this]

theorem noDoubleWs_dropTrailWs {l : List Char} (h : noDoubleWs l = true) :
    noDoubleWs (dropTrailWs l) = true := by
  induction l with
  | nil => rfl
  | cons c cs ih =>
    unfold dropTrailWs
    cases hr : dropTrailWs cs with
    | nil =>
      split_ifs with hc
      · rfl
      · rfl
    | cons r rs =>
      have hcs := ih (noDoubleWs_of_cons h)
      rw [hr] at hcs
      by_cases hc : isWs c = true
      · have hh : headNotWs cs = true := headNotWs_of_noDoubleWs hc h
        have hh2 : headNotWs (dropTrailWs cs) = true := headNotWs_dropTrailWs hh
        rw [hr] at hh2
        exact noDoubleWs_cons_of_head hh2 hcs
      · exact noDoubleWs_cons_of_not (by simpa using hc) hcs

theorem wsOnlySpace_lowerList {l : List Char} (h : wsOnlySpace l = true) :
    wsOnlySpace (lowerList l) = true := by
  simp only [wsOnlySpace, lowerList, List.all_map, List.all_eq_true] at h ⊢
  intro c hc
  have hcc := h c hc
  simp only [Function.comp, Bool.or_eq_true, Bool.not_eq_true', decide_eq_true_eq] at hcc ⊢
  rcases hcc with h1 | h1
  · left; rw [isWs_lowerChar]; exact h1
  · right; rw [h1]; rfl

theorem headNotWs_lowerList {l : List Char} (h : headNotWs l = true) :
    headNotWs (lowerList l) = true := by
  cases l with
  | nil => rfl
  | cons c cs =>
    simp only [lowerList, List.map_cons, headNotWs, Bool.not_eq_true'] at h ⊢
    rw [isWs_lowerChar]
    exact h

theorem lastNotWs_lowerList {l : List Char} (h : lastNotWs l = true) :
    lastNotWs (lowerList l) = true := by
  induction l with
  | nil => rfl
  | cons c cs ih =>
    cases cs with
    | nil =>
      simp only [lastNotWs, Bool.not_eq_true'] at h ⊢
      show isWs (lowerChar c) = false
      rw [isWs_lowerChar]; exact h
    | cons d ds =>
      have := ih h
      simpa [lowerList, lastNotWs] using this

theorem noDoubleWs_lowerList {l : List Char} (h : noDoubleWs l = true) :
    noDoubleWs (lowerList l) = true := by
  induction l with
  | nil => rfl
  | cons c cs ih =>
    cases cs with
    | nil => rfl
    | cons d ds =>
      simp only [noDoubleWs, Bool.and_eq_true] at h
      have := ih h.2
      simp only [lowerList, List.map_cons] at this ⊢
      simp only [noDoubleWs, Bool.and_eq_true]
      refine ⟨?_, this⟩
      have hpair := h.1
      simp only [Bool.not_eq_true', Bool.and_eq_false_iff] at hpair ⊢
      rcases hpair with hp | hp
      · left; rw [isWs_lowerChar]; exact hp
      · right; rw [isWs_lowerChar]; exact hp

theorem lowerList_fixed {l : List Char}
    (h : l.all (fun c => lowerChar c = c) = true) : lowerList l = l := by
  simp only [List.all_eq_true, decide_eq_true_eq] at h
  have : l.map lowerChar = l.map id := List.map_congr_left (fun c hc => h c hc)
  simpa using this

theorem all_lower_lowerList (l : List Char) :
    (lowerList l).all (fun c => lowerChar c = c) = true := by
  simp only [lowerList, List.all_eq_true, List.mem_map, decide_eq_true_eq]
  rintro c ⟨d, _, rfl⟩
  exact lowerChar_idem d

theorem normalizeList_props (l : List Char) :
    wsOnlySpace (normalizeList l) = true ∧
    noDoubleWs (normalizeList l) = true ∧
    headNotWs (normalizeList l) = true ∧
    lastNotWs (normalizeList l) = true ∧
    (normalizeList l).all (fun c => lowerChar c = c) = true := by
  unfold normalizeList stripWs
  refine ⟨?_, ?_, ?_, ?_, ?_⟩
  · exact wsOnlySpace_lowerList (wsOnlySpace_dropTrailWs
      (wsOnlySpace_dropWhile (wsOnlySpace_collapseWs false l)))
  · exact noDoubleWs_lowerList (noDoubleWs_dropTrailWs
      (noDoubleWs_dropWhile (noDoubleWs_collapseWs false l)))
  · exact headNotWs_lowerList (headNotWs_dropTrailWs (headNotWs_dropWhile _))
  · exact lastNotWs_lowerList (lastNotWs_dropTrailWs _)
  · exact all_lower_lowerList _

theorem normalizeList_eq_self {m : List Char}
    (h1 : wsOnlySpace m = true) (h2 : noDoubleWs m = true)
    (h3 : headNotWs m = true) (h4 : lastNotWs m = true)
    (h5 : m.all (fun c => lowerChar c = c) = true) :
    normalizeList m = m := by
  unfold normalizeList stripWs
  rw [collapseWs_eq_self false h1 h2 (by intro h; exact absurd h (by simp))]
  rw [dropWhile_eq_self h3, dropTrailWs_eq_self h4, lowerList_fixed h5]

theorem normalizeList_idem (l : List Char) :
    normalizeList (normalizeList l) = normalizeList l := by
  obtain ⟨h1, h2, h3, h4, h5⟩ := normalizeList_props l
  exact normalizeList_eq_self h1 h2 h3 h4 h5

theorem pts_layout_bounds (m : Metrics) : 0 ≤ pts_layout m ∧ pts_layout m ≤ 3 := by
  unfold pts_layout
  split_ifs <;> omega

theorem pts_actions_bounds (m : Metrics) : 0 ≤ pts_actions m ∧ pts_actions m ≤ 4 := by
  unfold pts_actions
  split_ifs <;> omega

theorem pts_keywords_bounds (m : Metrics) : 0 ≤ pts_keywords m ∧ pts_keywords m ≤ 3 := by
  unfold pts_keywords
  split_ifs <;> omega

theorem pts_brev_bounds (m : Metrics) : 0 ≤ pts_brev m ∧ pts_brev m ≤ 2 := by
  unfold pts_brev
  split_ifs <;> omega

theorem pts_clean_bounds (m : Metrics) : 0 ≤ pts_clean m ∧ pts_clean m ≤ 3 := by
  unfold pts_clean
  split_ifs <;> omega

theorem deriveKmr_resolved {role r : String} (h : resolveRole role = some r)
    (hne : (ROLE_KEYWORDS.lookup r).getD [] ≠ []) (text : String) :
    deriveKmr text role = keyword_match_rate text ((ROLE_KEYWORDS.lookup r).getD []) := by
  unfold deriveKmr
  rw [h]
  simp [hne]

/-- C1: for every numeric score in `[0, 100]`, `get_grade_tag` realises the
four bands with inclusive-lower and exclusive-upper boundaries at 50, 70 and
85: below 50 is Poor, `[50, 70)` is Average, `[70, 85)` is Good and `85` and
above is Excellent. -/
theorem claim1_grade_tag_bands (s : ℚ) (h0 : 0 ≤ s) (h100 : s ≤ 100) :
    (get_grade_tag s = "Poor" ↔ s < 50) ∧
    (get_grade_tag s = "Average" ↔ 50 ≤ s ∧ s < 70) ∧
    (get_grade_tag s = "Good" ↔ 70 ≤ s ∧ s < 85) ∧
    (get_grade_tag s = "Excellent" ↔ 85 ≤ s) := by
  unfold get_grade_tag
  split_ifs with h1 h2 h3 <;>
    refine ⟨?_, ?_, ?_, ?_⟩ <;>
    simp_all <;>
    first
      | linarith
      | (constructor <;> linarith)
      | (intro h; linarith)

/-- Witness for C1 at the spec's sample point `49.9`, which the theorem
places in the Poor band. -/
theorem claim1_grade_tag_bands_witness :
    (0 : ℚ) ≤ 499 / 10 ∧ (499 : ℚ) / 10 ≤ 100 ∧
    (get_grade_tag (499 / 10) = "Poor" ↔ (499 : ℚ) / 10 < 50) := by
  refine ⟨by norm_num, by norm_num, ?_⟩
  exact (claim1_grade_tag_bands (499 / 10) (by norm_num) (by norm_num)).1

/-- C2 counterexample: a URL repeated verbatim in plain text produces two
identical entries — the regex-found URLs are not deduplicated, so the claim
that deduplication by URL value applies to the whole output is false. -/
theorem claim2_dedup_counterexample :
    extract_and_identify_links "https://github.com/alice https://github.com/alice" =
      [⟨some "https://github.com/alice", "GitHub"⟩,
       ⟨some "https://github.com/alice", "GitHub"⟩] ∧
    ¬ ((extract_and_identify_links
          "https://github.com/alice https://github.com/alice").map
        (fun e => e.url)).Nodup := by
  constructor
  · decide
  · decide

/-- C2 amended: on the spec's example text (each URL occurring once) the
extractor returns exactly two entries, typed GitHub and LinkedIn, in
first-seen order; deduplication by URL value applies only to HTML-anchor
hrefs, which are checked against the URLs already collected (an anchor whose
href equals an already-collected URL adds no further entry — below, the
href is also found by the URL regex, so two entries appear and the anchor
pass adds no third), while plain-text URLs are appended unconditionally. -/
theorem claim2_link_extractor_amended :
    extract_and_identify_links
        "Contact https://github.com/alice and https://linkedin.com/in/bob" =
      [⟨some "https://github.com/alice", "GitHub"⟩,
       ⟨some "https://linkedin.com/in/bob", "LinkedIn"⟩] ∧
    extract_and_identify_links
        "see https://github.com/alice plus <a href=\"https://github.com/alice\">me</a>" =
      [⟨some "https://github.com/alice", "GitHub"⟩,
       ⟨some "https://github.com/alice", "GitHub"⟩] := by
  constructor
  · decide
  · decide

/-- C3 counterexample: in the report returned by the utils implementation the
per-section weights sum to 88, not 100 — the LinkedIn section carries a
hard-coded weight of 3 instead of the declared 15. -/
theorem claim3_weights_counterexample :
    (((Utils.calculate_dynamic_ats_score "" none none []).sections.map
        (fun p => p.2.weight)).sum = 88) ∧
    ¬ (((Utils.calculate_dynamic_ats_score "" none none []).sections.map
        (fun p => p.2.weight)).sum = 100) := by
  constructor
  · decide
  · decide

/-- C3 amended: both declared weight tables sum to 100 and assign LinkedIn
weight 15 (under the key `LinkedIn Profile` in utils and `LinkedIn` in
score_utils), but the report built by the utils implementation attaches the
hard-coded weight 3 to its LinkedIn section (stored under the key
`LinkedIn`, which the weight table does not contain), so the per-section
weights attached to every report are `[25, 20, 20, 3, 10, 10]`, summing to
88; the score_utils report sections carry no weight field at all. -/
theorem claim3_weights_amended :
    ((Utils.TECHNICAL_WEIGHTS.map (fun p => p.2)).sum = 100) ∧
    (Utils.TECHNICAL_WEIGHTS.lookup "LinkedIn Profile" = some 15) ∧
    (Utils.TECHNICAL_WEIGHTS.lookup "LinkedIn" = none) ∧
    ((ScoreUtils.TECHNICAL_WEIGHTS.map (fun p => p.2)).sum = 100) ∧
    (ScoreUtils.TECHNICAL_WEIGHTS.lookup "LinkedIn" = some 15) ∧
    (∀ t g l links, ((Utils.calculate_dynamic_ats_score t g l links).sections.map
        (fun p => p.2.weight)) = [25, 20, 20, 3, 10, 10]) := by
  refine ⟨by decide, by decide, by decide, by decide, by decide, ?_⟩
  intro t g l links
  rfl

/-- C4: `normalize_text` is idempotent, and its output is whitespace-stripped
at both ends, contains no two adjacent whitespace characters (any run having
been collapsed to a single space), and is fixed by lower-casing. -/
theorem claim4_normalize_idempotent (x : String) :
    normalize_text (normalize_text x) = normalize_text x ∧
    headNotWs (normalize_text x).data = true ∧
    lastNotWs (normalize_text x).data = true ∧
    noDoubleWs (normalize_text x).data = true ∧
    (normalize_text x).data.all (fun c => lowerChar c = c) = true := by
  obtain ⟨h1, h2, h3, h4, h5⟩ := normalizeList_props x.data
  refine ⟨?_, h3, h4, h2, h5⟩
  show (⟨normalizeList (normalize_text x).data⟩ : String) = ⟨normalizeList x.data⟩
  have hdata : (normalize_text x).data = normalizeList x.data := rfl
  rw [hdata, normalizeList_idem]

/-- C5: `keyword_match_rate` is the fraction of the keyword list appearing as
a substring of the normalized text (an empty list scoring 0), an unresolved
role yields rate 0 through `derive_resume_metrics`, and for the 14-keyword
"software engineer" catalog entry with text containing only "python, docker"
the derived rate is exactly `2 / 14`. -/
theorem claim5_keyword_match_rate (text role : String)
    (hrole : resolveRole role = none) :
    keyword_match_rate text [] = 0 ∧
    deriveKmr text role = 0 ∧
    (∀ kws : List String, kws ≠ [] →
      keyword_match_rate text kws =
        ((kws.countP (fun kw =>
            containsSub (normalizeList text.data) (lowerList kw.data)) : ℚ) /
          (kws.length : ℚ))) ∧
    deriveKmr "python, docker" "software engineer" = 2 / 14 ∧
    ((ROLE_KEYWORDS.lookup "software engineer").getD []).length = 14 := by
  refine ⟨by simp [keyword_match_rate], ?_, ?_, ?_, by decide⟩
  · unfold deriveKmr
    rw [hrole]
    simp
  · intro kws hne
    unfold keyword_match_rate
    rw [if_neg hne]
    have hlen : 1 ≤ kws.length :=
      Nat.one_le_iff_ne_zero.mpr (by simpa [List.length_eq_zero] using hne)
    have hmax : max (1 : ℚ) (kws.length : ℚ) = (kws.length : ℚ) :=
      max_eq_right (by exact_mod_cast hlen)
    rw [hmax]
  · rw [deriveKmr_resolved (r := "software engineer") (by decide) (by decide)]
    have hkws : (ROLE_KEYWORDS.lookup "software engineer").getD [] =
        ["python","java","javascript","react","node","docker","kubernetes",
         "microservices","rest","graphql","aws","gcp","ci/cd","unit testing"] := by decide
    rw [hkws]
    simp only [keyword_match_rate]
    rw [if_neg (by decide)]
    rw [show (["python","java","javascript","react","node","docker","kubernetes",
        "microservices","rest","graphql","aws","gcp","ci/cd","unit testing"].countP
      (fun kw => containsSub (normalizeList ("python, docker" : String).data)
        (lowerList kw.data))) = 2 from by decide]
    norm_num

/-- Witness for C5: the role title "chief executive" resolves to no catalog
entry, and the derived keyword match rate is then 0. -/
theorem claim5_keyword_match_rate_witness :
    resolveRole "chief executive" = none ∧
    deriveKmr "python, docker" "chief executive" = 0 := by
  have h : resolveRole "chief executive" = none := by decide
  exact ⟨h, (claim5_keyword_match_rate "python, docker" "chief executive" h).2.1⟩

/-- C6: for every metrics input the resume-content rubric earns between 0 and
15 points (the five sub-criterion maxima being 3, 4, 3, 2 and 3, summing to
the 15-point budget, with the subtotal equal to the sum of the per-item
earned points), and the normalized score is `round(earned / 15 * 100)`. -/
theorem claim6_ats_rubric (m : Metrics) :
    0 ≤ (ats_resume_scoring m).subtotal_earned ∧
    (ats_resume_scoring m).subtotal_earned ≤ 15 ∧
    ((ats_resume_scoring m).items.map (fun i => i.maxPts)) = [3, 4, 3, 2, 3] ∧
    ((ats_resume_scoring m).items.map (fun i => i.earned)).sum =
      (ats_resume_scoring m).subtotal_earned ∧
    (ats_resume_scoring m).subtotal_max = 15 ∧
    (ats_resume_scoring m).score_100 =
      roundHalfEven (((ats_resume_scoring m).subtotal_earned : ℚ) / 15 * 100) := by
  obtain ⟨a1, a2⟩ := pts_layout_bounds m
  obtain ⟨b1, b2⟩ := pts_actions_bounds m
  obtain ⟨c1, c2⟩ := pts_keywords_bounds m
  obtain ⟨d1, d2⟩ := pts_brev_bounds m
  obtain ⟨e1, e2⟩ := pts_clean_bounds m
  refine ⟨?_, ?_, rfl, ?_, rfl, rfl⟩
  · simp only [ats_resume_scoring]
    omega
  · simp only [ats_resume_scoring]
    omega
  · simp only [ats_resume_scoring, List.map_cons, List.map_nil, List.sum_cons,
      List.sum_nil]
    ring

/-- C7 counterexample: scoring empty text with no identifiers in the utils
implementation yields only 4 suggestion strings, not 5 — the missing
Certifications category contributes no entry to the top-level suggestions
list (its recommendations go into the section instead). -/
theorem claim7_suggestions_counterexample :
    (Utils.calculate_dynamic_ats_score "" none none []).suggestions.length = 4 ∧
    ¬ ((Utils.calculate_dynamic_ats_score "" none none []).suggestions.length = 5) := by
  constructor
  · decide
  · decide

/-- C7 amended: scoring empty text with no identifiers never fails and, in
both implementations, yields every presence flag false and score 0 for all
five presence-based categories; the suggestions list has exactly 5 entries in
the score_utils implementation but exactly 4 in the utils implementation,
which appends no suggestion for the missing Certifications category. -/
theorem claim7_empty_input_amended :
    (Utils.github_presence none = false ∧ Utils.leetcode_presence none = false ∧
     Utils.portfolio_presence "" = false ∧ Utils.linkedin_presence "" = false ∧
     Utils.cert_presence "" = false) ∧
    (((Utils.calculate_dynamic_ats_score "" none none []).sections.map
        (fun p => (p.1, p.2.score))) =
      [("GitHub Profile", 0), ("LeetCode/DSA Skills", 0), ("Portfolio Website", 0),
       ("LinkedIn", 0), ("Resume (ATS Score)", 65), ("Certifications & Branding", 0)]) ∧
    ((Utils.calculate_dynamic_ats_score "" none none []).suggestions =
      ["Add a GitHub profile link with pinned, recent projects.",
       "Include a LeetCode link to showcase DSA practice.",
       "Publish a simple portfolio with 2–3 best projects.",
       "Add a public LinkedIn link (custom URL preferred)."]) ∧
    (ScoreUtils.has_github none "" = false ∧ ScoreUtils.has_lc none "" = false ∧
     ScoreUtils.has_portfolio "" = false ∧ ScoreUtils.has_linkedin [] "" = false ∧
     ScoreUtils.has_certs "" = false) ∧
    (((ScoreUtils.calculate_dynamic_ats_score "" none none [] "Technical").sections.map
        (fun p => (p.1, p.2.score))) =
      [("GitHub Profile", 0), ("LeetCode/DSA Skills", 0), ("Portfolio Website", 0),
       ("LinkedIn", 0), ("Resume (ATS Score)", 60), ("Certifications & Branding", 0)]) ∧
    ((ScoreUtils.calculate_dynamic_ats_score "" none none [] "Technical").suggestions.length
      = 5) := by
  refine ⟨by decide, by decide, by decide, by decide, by decide, by decide⟩

/-- C8 counterexample: in the utils implementation a resume text containing
`github.com` does not make the GitHub category present when no username is
supplied — its presence test reads only the identifier, so the claimed
identifier-or-text disjunction fails there. -/
theorem claim8_presence_counterexample :
    containsSub ("see github.com/alice" : String).data ("github.com" : String).data
      = true ∧
    Utils.github_presence none = false ∧
    ((Utils.calculate_dynamic_ats_score "see github.com/alice" none none []).sections.lookup
        "GitHub Profile").map (fun s => s.score) = some 0 := by
  refine ⟨by decide, by decide, by decide⟩

/-- C8 amended: in the score_utils implementation GitHub and LeetCode
presence are the disjunction of a caller-supplied identifier and a domain
substring of the lower-cased text, LinkedIn is the disjunction of a
caller-extracted LinkedIn link and a text pattern, and a text containing
`github.com` makes GitHub present (score 70) without any username; in the
utils implementation GitHub and LeetCode presence test only the identifier
and have no text fallback. -/
theorem claim8_presence_amended :
    (∀ (u : Option String) (t : String),
      ScoreUtils.has_github u t =
        (truthyStr u || containsSub (lowerList t.data) ("github.com" : String).data)) ∧
    (∀ (u : Option String) (t : String),
      ScoreUtils.has_lc u t =
        (truthyStr u || containsSub (lowerList t.data) ("leetcode.com" : String).data)) ∧
    (∀ (links : List ScoreUtils.Link) (t : String),
      ScoreUtils.has_linkedin links t =
        (ScoreUtils.hasLink links "LinkedIn" ||
          containsSub (lowerList t.data) ("linkedin.com/in/" : String).data)) ∧
    (((ScoreUtils.calculate_dynamic_ats_score "see github.com/alice" none none []
        "Technical").sections.lookup "GitHub Profile").map (fun s => s.score)
      = some 70) ∧
    (∀ u : Option String, Utils.github_presence u = truthyStr u) ∧
    (∀ u : Option String, Utils.leetcode_presence u = truthyStr u) := by
  refine ⟨fun u t => rfl, fun u t => rfl, fun links t => rfl, by decide,
    fun u => rfl, fun u => rfl⟩

/-- C9: the scoring engine is deterministic — both embedded implementations
are pure functions, so two invocations on identical inputs return identical
reports. -/
theorem claim9_deterministic (t t' : String) (g g' l l' : Option String)
    (links links' : List (Option String × String))
    (slinks slinks' : List ScoreUtils.Link) (d d' : String)
    (ht : t = t') (hg : g = g') (hl : l = l') (hlinks : links = links')
    (hs : slinks = slinks') (hd : d = d') :
    Utils.calculate_dynamic_ats_score t g l links =
      Utils.calculate_dynamic_ats_score t' g' l' links' ∧
    ScoreUtils.calculate_dynamic_ats_score t g l slinks d =
      ScoreUtils.calculate_dynamic_ats_score t' g' l' slinks' d' := by
  subst ht hg hl hlinks hs hd
  exact ⟨rfl, rfl⟩

/-- Witness for C9 at a concrete invocation. -/
theorem claim9_deterministic_witness :
    Utils.calculate_dynamic_ats_score "resume text" none none [] =
      Utils.calculate_dynamic_ats_score "resume text" none none [] ∧
    ScoreUtils.calculate_dynamic_ats_score "resume text" none none [] "Technical" =
      ScoreUtils.calculate_dynamic_ats_score "resume text" none none [] "Technical" :=
  claim9_deterministic "resume text" "resume text" none none none none [] [] [] []
    "Technical" "Technical" rfl rfl rfl rfl rfl rfl

/-- C10: in every report the Resume (ATS Score) section score is a constant
placeholder independent of all inputs — 65 in the utils implementation and
60 in the score_utils implementation. -/
theorem claim10_resume_placeholder :
    (∀ t g l links,
      ((Utils.calculate_dynamic_ats_score t g l links).sections.lookup
          "Resume (ATS Score)").map (fun s => s.score) = some 65) ∧
    (∀ t g l slinks d,
      ((ScoreUtils.calculate_dynamic_ats_score t g l slinks d).sections.lookup
          "Resume (ATS Score)").map (fun s => s.score) = some 60) := by
  exact ⟨fun t g l links => rfl, fun t g l slinks d => rfl⟩
